import Mathlib

/-!
Verification of the gesher admission proxy against its specification.

The definitions below are a shallow embedding of the Go source:

* `errToFailure`, `toFailure` embed the outcome-classification and
  failure-policy folding of the Webhook Caller
  (`pkg/admission_proxy`, functions `errToFailure` / `toFailure`).
* `checkWebhooks` embeds the Dispatcher merge (`checkWebhooks`): the Go
  function fans one goroutine out per webhook, each goroutine reports one
  `error` value (possibly nil) on a shared channel, and after the join
  barrier the merge inspects only that list of collected error values.
  We therefore embed the merge as a function of the list of collected
  per-call outcomes, in channel-arrival order (`none` = the call resolved
  to Allow, `some e` = it resolved to Deny with message `e`).
* `findWebhooks` embeds endpoint resolution (`findWebhooks`): Go reads
  five environment variables and panics on a missing or malformed one;
  we embed the environment as an explicit record (empty string = unset,
  exactly the value `os.Getenv` yields) and a panic as `Except.error`
  carrying the panic message.
* `buildRequest` embeds the request-construction part of `doWebhook`:
  URL formatting, the `x509.NewCertPool` / `AppendCertsFromPEM` trust
  set, header copying and the body.  A certificate pool is embedded as
  the list of PEM bundles appended to it (a fresh pool is empty, and
  the only growth operation is appending a bundle).
* `containsString`, `removeString`, `manageFinalizer`,
  `manageGeneration`, `manageWebhookConfig` (inlined) and `act` embed
  `pkg/controller/proxyvalidatingtype/act.go`.  Client writes cannot be
  performed inside a pure embedding, so the behaviour of the Kubernetes
  client is an explicit oracle (`ClientBehavior`) giving the error each
  write call would return, and `act` additionally records the list of
  write calls it issued, the in-memory custom resource it produced, and
  whether it reached the final `proxyTypeData = state.newProxyTypeData`
  assignment (the Aggregate snapshot publication).
-/

namespace Gesher

/-! ## Webhook Caller: outcome classification and failure policy -/

/-- Embeds `admissionregistration/v1beta1.FailurePolicyType`; the Go
`errToFailure` switches on `Fail` and treats everything else as `Ignore`
(its `default` branch). -/
inductive FailurePolicyType where
  | Fail
  | Ignore
deriving DecidableEq

/-- The observable outcome of reading and parsing an HTTP response body in
`toFailure`: `ioutil.ReadAll` may fail, `json.Unmarshal` may fail, or a
review is parsed with an `allowed` flag and a result message. -/
inductive BodyOutcome where
  | readErr (e : String)
  | parseErr (e : String)
  | parsed (allowed : Bool) (message : String)
deriving DecidableEq

/-- An HTTP response as `toFailure` observes it: `body = none` embeds a nil
`resp.Body`. -/
structure Response where
  body : Option BodyOutcome
deriving DecidableEq

/-- Embeds `errToFailure` (part_000 lines 175-184): fold one classified error
through the failure policy.  `some msg` embeds a non-nil returned `error`
with message `msg`; `none` embeds a nil return. -/
def errToFailure (name : String) (err : String)
    (failurePolicy : FailurePolicyType) : Option String :=
  match failurePolicy with
  | .Fail => some ("proxied webhook " ++ name ++ " failed: " ++ err)
  | .Ignore => none

/-- Embeds `toFailure` (part_000 lines 141-173).  The Go code checks
`httpErr` first and only dereferences `resp` when `httpErr == nil` (the
`net/http` contract guarantees a non-nil response then), so the embedding
takes the response unconditionally and the transport-error branch ignores
it, exactly as the source does. -/
def toFailure (name : String) (resp : Response) (httpErr : Option String)
    (failurePolicy : FailurePolicyType) : Option String :=
  match httpErr with
  | some e => errToFailure name ("http error: " ++ e) failurePolicy
  | none =>
    match resp.body with
    | none => errToFailure name "response body is nil" failurePolicy
    | some (.readErr e) => errToFailure name ("ReadAll failed: " ++ e) failurePolicy
    | some (.parseErr e) => errToFailure name ("json unmarshall failed: " ++ e) failurePolicy
    | some (.parsed allowed message) =>
      if !allowed then
        some ("proxied webhook " ++ name ++ " denied the request: " ++ message)
      else
        none

/-- The failure policy `doWebhook` (part_000 lines 135-136) applies: the Go
code assigns the constant `admv1beta1.Fail` to a local, ignoring any
configuration. -/
def doWebhookFailurePolicy : FailurePolicyType := .Fail

/-- Embeds the classification step of `doWebhook`: the call outcome sent to
the error channel is `toFailure("webhook", resp, err, failurePolicy)` with
the hardcoded policy. -/
def doWebhookOutcome (resp : Response) (httpErr : Option String) : Option String :=
  toFailure "webhook" resp httpErr doWebhookFailurePolicy

/-! ## Dispatcher: merge of collected call outcomes -/

/-- The admission response envelope: `allowed` flag plus an optional
human-readable message. -/
structure AdmissionResponse where
  allowed : Bool
  message : Option String
deriving DecidableEq

/-- Modelled from the spec: `approved` is called by `checkWebhooks` but its
definition is not under src/; per the spec, the outbound envelope for the
allowing verdict has `allowed = true` and no message. -/
def approved : AdmissionResponse :=
  { allowed := true, message := none }

/-- Modelled from the spec: `errToAdmissionResponse` is called by
`checkWebhooks` but its definition is not under src/; per the spec the
admission caller receives a Deny carrying the error's message. -/
def errToAdmissionResponse (e : String) : AdmissionResponse :=
  { allowed := false, message := some e }

/-- Embeds the merge in `checkWebhooks` (part_000 lines 76-107).  The Go
function launches one goroutine per webhook, each sending exactly one
(possibly nil) error on `errCh`; after `wg.Wait` it drains the channel,
keeps the non-nil errors, and returns `approved()` when none remain or
`errToAdmissionResponse(errs[0])` otherwise.  `outcomes` is the drained
channel content in arrival order, one entry per launched webhook, so
`outcomes = []` is exactly the `len(webhooks) == 0` early return. -/
def checkWebhooks (outcomes : List (Option String)) : AdmissionResponse :=
  if outcomes = [] then
    approved
  else
    match outcomes.filterMap id with
    | [] => approved
    | e :: _ => errToAdmissionResponse e

/-! ## Endpoint resolution: `findWebhooks` -/

/-- The request fields relevant to rule matching per the spec; the Go
`findWebhooks` receives the whole `AdmissionRequest` and (as proved below)
ignores it entirely. -/
structure AdmissionRequest where
  group : String
  version : String
  resource : String
  operation : String
deriving DecidableEq

/-- The loosely typed endpoint description (Go `type Webhook
map[string]string` with its five constant keys). -/
structure Webhook where
  serviceName : String
  serviceNamespace : String
  path : String
  caBundle : String
  port : String
deriving DecidableEq

/-- The process environment as `os.Getenv` exposes it: one string per
variable consulted by `findWebhooks`, with `""` for an unset variable
(exactly what `os.Getenv` returns then). -/
structure Env where
  admServiceName : String
  admServiceNamespace : String
  admServiceEndpoint : String
  admServiceCABundle : String
  admServicePort : String
deriving DecidableEq

/-- Value of one character in the standard base64 alphabet. -/
def b64Val (c : Char) : Option Nat :=
  if 'A' ≤ c ∧ c ≤ 'Z' then some (c.toNat - 'A'.toNat)
  else if 'a' ≤ c ∧ c ≤ 'z' then some (c.toNat - 'a'.toNat + 26)
  else if '0' ≤ c ∧ c ≤ '9' then some (c.toNat - '0'.toNat + 52)
  else if c = '+' then some 62
  else if c = '/' then some 63
  else none

/-- Decode standard base64 four characters at a time, handling `=` padding
in the final quantum, rejecting any other shape (embeds Go
`base64.StdEncoding` behaviour for `DecodeString`). -/
def b64DecodeGroups : List Char → Option (List Nat)
  | [] => some []
  | c1 :: c2 :: c3 :: c4 :: rest =>
    match b64Val c1, b64Val c2 with
    | some v1, some v2 =>
      if c3 = '=' then
        if c4 = '=' ∧ rest = [] then
          some [v1 * 4 + v2 / 16]
        else
          none
      else
        match b64Val c3 with
        | some v3 =>
          if c4 = '=' then
            if rest = [] then
              some [v1 * 4 + v2 / 16, (v2 % 16) * 16 + v3 / 4]
            else
              none
          else
            match b64Val c4, b64DecodeGroups rest with
            | some v4, some bs =>
              some ((v1 * 4 + v2 / 16) :: ((v2 % 16) * 16 + v3 / 4) ::
                    ((v3 % 4) * 64 + v4) :: bs)
            | _, _ => none
        | none => none
    | _, _ => none
  | _ => none

/-- Embeds `base64.StdEncoding.DecodeString`: newline and carriage-return
characters are ignored, everything else must form valid padded base64. -/
def base64StdDecode (s : String) : Option (List Nat) :=
  b64DecodeGroups (s.toList.filter fun c => !(c = '\r' ∨ c = '\n'))

/-- Bytes back to a Go string (`string(data)`); the decoded values are
below 256, hence valid code points. -/
def bytesToString (bs : List Nat) : String :=
  String.mk (bs.map Char.ofNat)

/-- Accumulate decimal digits. -/
def digitsToNat (acc : Nat) : List Char → Nat
  | [] => acc
  | c :: rest => digitsToNat (acc * 10 + (c.toNat - '0'.toNat)) rest

/-- Embeds `strconv.Atoi`: optional sign followed by at least one decimal
digit (the overflow bound of the 64-bit Go int is immaterial here and not
modelled). -/
def atoi (s : String) : Option Int :=
  let p : Int × List Char :=
    match s.toList with
    | '+' :: rest => (1, rest)
    | '-' :: rest => (-1, rest)
    | cs => (1, cs)
  if p.2 ≠ [] ∧ p.2.all Char.isDigit then
    some (p.1 * Int.ofNat (digitsToNat 0 p.2))
  else
    none

/-- Embeds `findWebhooks` (part_000 lines 43-73).  The Go function is
invoked with the inbound admission request during dispatch; it reads and
validates the five environment variables on every call and panics on any
missing or malformed one.  A panic is embedded as `Except.error` with the
panic message. -/
def findWebhooks (env : Env) (_request : AdmissionRequest) :
    Except String (List Webhook) :=
  if env.admServiceName = "" then
    .error "failed to read env variable ADM_SERVICE_NAME"
  else if env.admServiceNamespace = "" then
    .error "failed to read env variable ADM_SERVICE_NAMESPACE"
  else if env.admServiceEndpoint = "" then
    .error "failed to read env variable ADM_SERVICE_ENDPOINT"
  else if env.admServiceCABundle = "" then
    .error "failed to read env variable ADM_SERVICE_CABUNDLE"
  else
    match base64StdDecode env.admServiceCABundle with
    | none => .error "failed to base64 decode cabundle"
    | some data =>
      if env.admServicePort = "" then
        .error "failed to read env variable ADM_SERVICE_PORT"
      else
        match atoi env.admServicePort with
        | none => .error "failed to convert port to an int"
        | some _ =>
          .ok [{ serviceName := env.admServiceName
                 serviceNamespace := env.admServiceNamespace
                 path := env.admServiceEndpoint
                 caBundle := bytesToString data
                 port := env.admServicePort }]

/-! ## Webhook Caller: request construction in `doWebhook` -/

/-- A certificate pool, embedded as the list of PEM bundles appended to it. -/
abbrev CertPool := List String

/-- Embeds `x509.NewCertPool()`: a fresh pool trusts nothing — in
particular it does not start from the ambient system trust store. -/
def newCertPool : CertPool := []

/-- Embeds `pool.AppendCertsFromPEM(pem)`. -/
def appendCertsFromPEM (pool : CertPool) (pem : String) : CertPool :=
  pool ++ [pem]

/-- The outbound HTTPS request as `doWebhook` constructs it: target URL,
the TLS root set of the client, the headers added to the new request, and
the body reader handed to `http.NewRequestWithContext`. -/
structure BuiltRequest where
  url : String
  rootCAs : CertPool
  headers : List (String × String)
  body : String
deriving DecidableEq

/-- Embeds the construction part of `doWebhook` (part_000 lines 109-139):
format the URL from the endpoint's own fields, build the client's root set
from a fresh pool plus exactly that endpoint's CA bundle, copy every
inbound header key/value pair onto the new request, and pass the inbound
body through unchanged.  `inboundHeaders` embeds `r.Header`
(`map[string][]string`); the nested loop `for k, v := range r.Header { for
_, s := range v { req.Header.Add(k, s) } }` is the flattening below. -/
def buildRequest (webhook : Webhook)
    (inboundHeaders : List (String × List String)) (body : String) :
    BuiltRequest :=
  { url := "https://" ++ webhook.serviceName ++ "." ++
      webhook.serviceNamespace ++ ":" ++ webhook.port ++ webhook.path
    rootCAs := appendCertsFromPEM newCertPool webhook.caBundle
    headers := inboundHeaders.flatMap fun kv => kv.2.map fun s => (kv.1, s)
    body := body }

/-! ## Reconciler: `act.go` -/

/-- The finalizer constant `type.finalizer.gesher`. -/
def typeFinalizer : String := "type.finalizer.gesher"

/-- The fields of the custom resource that `act` reads or mutates:
the finalizer list, the metadata generation and the status observed
generation. -/
structure CustomResource where
  finalizers : List String
  generation : Int
  statusObservedGeneration : Int
deriving DecidableEq

/-- Embeds the helper `containsString`. -/
def containsString (slice : List String) (s : String) : Bool :=
  match slice with
  | [] => false
  | item :: rest => if item = s then true else containsString rest s

/-- Embeds the helper `removeString`: keep, in order, every item different
from `s` (the Go loop appends the kept items to a fresh slice). -/
def removeString (slice : List String) (s : String) : List String :=
  match slice with
  | [] => []
  | item :: rest =>
    if item = s then removeString rest s else item :: removeString rest s

/-- Embeds `manageFinalizer` (act.go lines 64-83): switch on the deletion
marker, add the finalizer when absent and not deleting, remove it when
present and deleting; return the updated resource and whether a change was
made. -/
def manageFinalizer (del : Bool) (cr : CustomResource) :
    CustomResource × Bool :=
  match del with
  | false =>
    if !containsString cr.finalizers typeFinalizer then
      ({ cr with finalizers := cr.finalizers ++ [typeFinalizer] }, true)
    else
      (cr, false)
  | true =>
    if containsString cr.finalizers typeFinalizer then
      ({ cr with finalizers := removeString cr.finalizers typeFinalizer }, true)
    else
      (cr, false)

/-- Embeds `manageGeneration` (act.go lines 52-62). -/
def manageGeneration (cr : CustomResource) : CustomResource × Bool :=
  if cr.statusObservedGeneration ≠ cr.generation then
    ({ cr with statusObservedGeneration := cr.generation }, true)
  else
    (cr, false)

/-- The analyzed state handed to `act`: the decision booleans, the custom
resource, and — as opaque tokens, since `act` only passes them to the
client or assigns them — the generated webhook object and the new
aggregate snapshot. -/
structure AnalyzedState where
  update : Bool
  create : Bool
  delete : Bool
  customResource : CustomResource
  webhook : Nat
  newProxyTypeData : Nat
deriving DecidableEq

/-- The kinds of Kubernetes client write calls `act` can issue. -/
inductive WriteOp where
  | createWebhook
  | updateWebhook
  | fullUpdate
  | statusUpdate
deriving DecidableEq

/-- Oracle for the Kubernetes client: the error each write call would
return if issued (`none` = success), standing in for `c.Create`,
`c.Update` on the webhook, `c.Update` on the custom resource, and
`c.Status().Update`. -/
structure ClientBehavior where
  createErr : Option String
  updateWebhookErr : Option String
  fullUpdateErr : Option String
  statusUpdateErr : Option String
deriving DecidableEq

/-- What one `act` invocation did: the error it returned (`none` = nil),
the write calls it issued in order, the in-memory custom resource when it
returned, and the aggregate snapshot it published (`none` = the final
`proxyTypeData = state.newProxyTypeData` assignment was never reached). -/
structure ActResult where
  err : Option String
  writes : List WriteOp
  customResource : CustomResource
  published : Option Nat
deriving DecidableEq

/-- Embeds `act` (act.go lines 13-50) with `manageWebhookConfig`
(lines 85-103) inlined: when `state.update`, issue the create or update of
the cluster webhook and return its error on failure; then run
`manageFinalizer` and `manageGeneration` on the in-memory resource; if the
finalizer changed do one full-object update, else if only status changed
do one status-only update, returning the error on failure; finally assign
the aggregate snapshot and return nil. -/
def act (c : ClientBehavior) (state : AnalyzedState) : ActResult :=
  let applyErr : Option String :=
    if state.update then
      if state.create then c.createErr else c.updateWebhookErr
    else
      none
  let applyWrites : List WriteOp :=
    if state.update then
      if state.create then [.createWebhook] else [.updateWebhook]
    else
      []
  match applyErr with
  | some e =>
    { err := some e
      writes := applyWrites
      customResource := state.customResource
      published := none }
  | none =>
    let p1 := manageFinalizer state.delete state.customResource
    let p2 := manageGeneration p1.1
    if p1.2 then
      { err := c.fullUpdateErr
        writes := applyWrites ++ [.fullUpdate]
        customResource := p2.1
        published :=
          if c.fullUpdateErr = none then some state.newProxyTypeData else none }
    else if p2.2 then
      { err := c.statusUpdateErr
        writes := applyWrites ++ [.statusUpdate]
        customResource := p2.1
        published :=
          if c.statusUpdateErr = none then some state.newProxyTypeData else none }
    else
      { err := none
        writes := applyWrites
        customResource := p2.1
        published := some state.newProxyTypeData }

/-! ## Helper lemmas -/

theorem filterMap_id_eq_nil (l : List (Option String)) :
    l.filterMap id = [] ↔ ∀ o ∈ l, o = none := by
  induction l with
  | nil => simp
  | cons a rest ih => cases a <;> simp [List.filterMap_cons, ih]

theorem mem_filterMap_id (l : List (Option String)) (x : String) :
    x ∈ l.filterMap id ↔ some x ∈ l := by
  simp [List.mem_filterMap]

theorem checkWebhooks_allowed_false (l : List (Option String)) (x : String)
    (hx : some x ∈ l) : (checkWebhooks l).allowed = false := by
  have hne : l ≠ [] := by
    intro h
    subst h
    cases hx
  unfold checkWebhooks
  rw [if_neg hne]
  cases hf : l.filterMap id with
  | nil =>
    exfalso
    have hmem : x ∈ l.filterMap id := (mem_filterMap_id l x).mpr hx
    rw [hf] at hmem
    cases hmem
  | cons e rest => simp [errToAdmissionResponse]

/-! ## Claims about the Webhook Caller and the Dispatcher -/

/-- C1, counterexample: the claim says a parsed response with
`allowed = false` under `FailurePolicy = Ignore` yields Allow, exactly as a
transport or protocol failure would.  On the code, `toFailure` returns a
denial error for `allowed = false` before ever consulting the failure
policy, so under `Ignore` the outcome is still Deny, not Allow. -/
theorem toFailure_ignore_denial_counterexample :
    toFailure "webhook" { body := some (.parsed false "msg") } none .Ignore =
      some "proxied webhook webhook denied the request: msg" ∧
    toFailure "webhook" { body := some (.parsed false "msg") } none .Ignore ≠
      none := by
  exact ⟨rfl, by decide⟩

/-- C1, amended: transport errors (a non-nil HTTP error) and protocol errors
(nil body, unreadable body, or unparsable body) are folded through the
endpoint's FailurePolicy — under `Fail` the outcome is Deny, under `Ignore`
it is Allow — while a parsed response with `allowed = false` yields Deny
under every failure policy, without being folded through it. -/
theorem toFailure_failure_policy (name e m msg : String) (resp : Response)
    (fp : FailurePolicyType)
    (hp : resp.body = none ∨ resp.body = some (.readErr m) ∨
      resp.body = some (.parseErr m)) :
    ((toFailure name resp (some e) .Fail).isSome = true ∧
      toFailure name resp (some e) .Ignore = none) ∧
    ((toFailure name resp none .Fail).isSome = true ∧
      toFailure name resp none .Ignore = none) ∧
    toFailure name { body := some (.parsed false msg) } none fp =
      some ("proxied webhook " ++ name ++ " denied the request: " ++ msg) := by
  refine ⟨⟨by simp [toFailure, errToFailure], by simp [toFailure, errToFailure]⟩, ?_, ?_⟩
  · rcases hp with h | h | h <;> simp [toFailure, errToFailure, h]
  · cases fp <;> simp [toFailure]

theorem toFailure_failure_policy_witness :
    ((toFailure "webhook" { body := none } (some "connection refused") .Fail).isSome = true ∧
      toFailure "webhook" { body := none } (some "connection refused") .Ignore = none) ∧
    ((toFailure "webhook" { body := none } none .Fail).isSome = true ∧
      toFailure "webhook" { body := none } none .Ignore = none) ∧
    toFailure "webhook" { body := some (.parsed false "no") } none .Ignore =
      some ("proxied webhook " ++ "webhook" ++ " denied the request: " ++ "no") :=
  toFailure_failure_policy "webhook" "connection refused" "m" "no"
    { body := none } .Ignore (Or.inl rfl)

/-- C3: the Dispatcher merge returns Allow on an empty outcome list (zero
matched endpoints), returns Allow exactly when every collected outcome
resolved to Allow (`none`, including error outcomes the failure policy
mapped to Allow), and produces a non-allowed verdict only when at least one
outcome resolved to Deny. -/
theorem checkWebhooks_merge (outcomes : List (Option String)) :
    checkWebhooks [] = approved ∧
    (checkWebhooks outcomes = approved ↔ ∀ o ∈ outcomes, o = none) ∧
    ((checkWebhooks outcomes).allowed = false → ∃ e, some e ∈ outcomes) := by
  refine ⟨rfl, ?_, ?_⟩
  · unfold checkWebhooks
    by_cases hne : outcomes = []
    · subst hne
      simp
    · rw [if_neg hne]
      cases hf : outcomes.filterMap id with
      | nil =>
        simpa [hne] using (filterMap_id_eq_nil outcomes).mp hf
      | cons e rest =>
        have hmem : some e ∈ outcomes := by
          have : e ∈ outcomes.filterMap id := by
            rw [hf]
            exact List.mem_cons_self e rest
          exact (mem_filterMap_id outcomes e).mp this
        constructor
        · intro hcontra
          exact absurd (congrArg AdmissionResponse.allowed hcontra) (by
            simp [errToAdmissionResponse, approved])
        · intro hall
          exact absurd (hall _ hmem) (by simp)
  · intro hfalse
    by_cases hall : ∀ o ∈ outcomes, o = none
    · exfalso
      have : checkWebhooks outcomes = approved := by
        unfold checkWebhooks
        by_cases hne : outcomes = []
        · simp [hne]
        · rw [if_neg hne, (filterMap_id_eq_nil outcomes).mpr hall]
      rw [this] at hfalse
      simp [approved] at hfalse
    · push_neg at hall
      obtain ⟨o, ho, hne⟩ := hall
      cases o with
      | none => exact absurd rfl hne
      | some e => exact ⟨e, ho⟩

theorem checkWebhooks_merge_witness :
    checkWebhooks [] = approved ∧
    (checkWebhooks [none, some "stop"] = approved ↔
      ∀ o ∈ [none, some "stop"], o = none) ∧
    ((checkWebhooks [none, some "stop"]).allowed = false →
      ∃ e, some e ∈ [none, some "stop"]) :=
  checkWebhooks_merge [none, some "stop"]

/-- C9, counterexample: the claim says the surfaced denial message is the
one from the first denying outcome in endpoint evaluation order, for every
combination of outcomes.  The merge reads the fan-out goroutines' results
from a shared channel in completion order, which is some permutation of
endpoint order: when the endpoint-order outcomes are
`[some "m1", some "m2"]` but the second call completes first, the drained
channel holds `[some "m2", some "m1"]` and the surfaced message is `"m2"`,
not the first denier `"m1"` of endpoint evaluation order. -/
theorem checkWebhooks_order_counterexample :
    List.Perm [some "m2", some "m1"] [some "m1", some "m2"] ∧
    checkWebhooks [some "m2", some "m1"] = errToAdmissionResponse "m2" ∧
    ([some "m1", some "m2"].filterMap id).head? = some "m1" ∧
    ("m2" : String) ≠ "m1" := by
  exact ⟨List.Perm.swap (some "m1") (some "m2") [], by decide, by decide, by decide⟩

/-- C9, amended: when at least one outcome resolves to Deny, the overall
verdict is Deny for every channel-arrival order (every permutation of the
endpoint-order outcomes), and the surfaced denial message is the one of
some denying outcome — namely the first denial in arrival order, which need
not be the first in endpoint evaluation order. -/
theorem checkWebhooks_deny_first_arrival (os arrival : List (Option String))
    (h : List.Perm arrival os) (e : String) (he : some e ∈ os) :
    (checkWebhooks arrival).allowed = false ∧
    checkWebhooks arrival = errToAdmissionResponse ((arrival.filterMap id).headI) ∧
    some ((arrival.filterMap id).headI) ∈ os := by
  have hmem : some e ∈ arrival := h.mem_iff.mpr he
  have hffne : arrival.filterMap id ≠ [] := by
    intro hf
    have : e ∈ arrival.filterMap id := (mem_filterMap_id arrival e).mpr hmem
    rw [hf] at this
    cases this
  refine ⟨checkWebhooks_allowed_false arrival e hmem, ?_, ?_⟩
  · unfold checkWebhooks
    rw [if_neg (by intro hnil; subst hnil; cases hmem)]
    cases hf : arrival.filterMap id with
    | nil => exact absurd hf hffne
    | cons m rest => simp [hf]
  · cases hf : arrival.filterMap id with
    | nil => exact absurd hf hffne
    | cons m rest =>
      have : m ∈ arrival.filterMap id := by
        rw [hf]
        exact List.mem_cons_self m rest
      have hm : some m ∈ arrival := (mem_filterMap_id arrival m).mp this
      simpa [hf] using h.mem_iff.mp hm

theorem checkWebhooks_deny_first_arrival_witness :
    (checkWebhooks [none, some "m1"]).allowed = false ∧
    checkWebhooks [none, some "m1"] =
      errToAdmissionResponse (([none, some "m1"].filterMap id).headI) ∧
    some (([none, some "m1"].filterMap id).headI) ∈ [none, some "m1"] :=
  checkWebhooks_deny_first_arrival [none, some "m1"] [none, some "m1"]
    (List.Perm.refl _) "m1" (by decide)

/-- C10: the failure policy applied by `doWebhook` is the constant `Fail`,
independent of any per-endpoint configuration; consequently every transport
error and every protocol error makes the call outcome Deny and the overall
verdict Deny whenever such a call participates, and the `Ignore` branch is
unreachable in dispatch. -/
theorem doWebhook_policy_const (resp : Response) (e m : String)
    (hp : resp.body = none ∨ resp.body = some (.readErr m) ∨
      resp.body = some (.parseErr m)) :
    doWebhookFailurePolicy = .Fail ∧
    (∀ r he, doWebhookOutcome r he = toFailure "webhook" r he .Fail) ∧
    (doWebhookOutcome resp (some e)).isSome = true ∧
    (doWebhookOutcome resp none).isSome = true ∧
    (∀ pre post,
      (checkWebhooks (pre ++ doWebhookOutcome resp (some e) :: post)).allowed
        = false) := by
  refine ⟨rfl, fun r he => rfl, ?_, ?_, ?_⟩
  · simp [doWebhookOutcome, doWebhookFailurePolicy, toFailure, errToFailure]
  · rcases hp with h | h | h <;>
      simp [doWebhookOutcome, doWebhookFailurePolicy, toFailure, errToFailure, h]
  · intro pre post
    have hs : (doWebhookOutcome resp (some e)).isSome = true := by
      simp [doWebhookOutcome, doWebhookFailurePolicy, toFailure, errToFailure]
    obtain ⟨x, hx⟩ := Option.isSome_iff_exists.mp hs
    refine checkWebhooks_allowed_false _ x ?_
    rw [← hx]
    exact List.mem_append_right pre (List.mem_cons_self _ _)

theorem doWebhook_policy_const_witness :
    doWebhookFailurePolicy = .Fail ∧
    (∀ r he, doWebhookOutcome r he = toFailure "webhook" r he .Fail) ∧
    (doWebhookOutcome { body := none } (some "tls handshake failed")).isSome = true ∧
    (doWebhookOutcome { body := none } none).isSome = true ∧
    (∀ pre post,
      (checkWebhooks
        (pre ++ doWebhookOutcome { body := none } (some "tls handshake failed") :: post)).allowed
        = false) :=
  doWebhook_policy_const { body := none } "tls handshake failed" "m" (Or.inl rfl)

/-! ## Claims about the Reconciler -/

theorem containsString_iff (l : List String) (s : String) :
    containsString l s = true ↔ s ∈ l := by
  induction l with
  | nil => simp [containsString]
  | cons a rest ih =>
    by_cases h : a = s
    · subst h
      simp [containsString]
    · simp [containsString, h, ih, Ne.symm h]

theorem containsString_removeString (l : List String) (s : String) :
    containsString (removeString l s) s = false := by
  induction l with
  | nil => simp [removeString, containsString]
  | cons a rest ih =>
    by_cases h : a = s
    · simp [removeString, h, ih]
    · simp [removeString, containsString, h, ih]

theorem removeString_length_le (l : List String) (s : String) :
    (removeString l s).length ≤ l.length := by
  induction l with
  | nil => simp [removeString]
  | cons a rest ih =>
    by_cases h : a = s <;> simp [removeString, h] <;> omega

theorem removeString_length_lt (l : List String) (s : String)
    (h : containsString l s = true) :
    (removeString l s).length < l.length := by
  induction l with
  | nil => simp [containsString] at h
  | cons a rest ih =>
    by_cases ha : a = s
    · have := removeString_length_le rest s
      simp [removeString, ha]
      omega
    · rw [containsString, if_neg ha] at h
      have := ih h
      simp [removeString, ha]
      omega

theorem removeString_ne (l : List String) (s : String)
    (h : containsString l s = true) : removeString l s ≠ l := by
  intro heq
  have := removeString_length_lt l s h
  rw [heq] at this
  omega

theorem append_singleton_ne (l : List String) (s : String) : l ++ [s] ≠ l := by
  intro heq
  have := congrArg List.length heq
  simp at this

/-- C6: after `manageFinalizer` runs, the finalizer is present on the
resource if and only if the resource is not marked for deletion; the
returned boolean is `true` exactly when the finalizer list changed, and a
`false` return means the resource was returned untouched. -/
theorem manageFinalizer_correct (del : Bool) (cr : CustomResource) :
    containsString ((manageFinalizer del cr).1).finalizers typeFinalizer = !del ∧
    ((manageFinalizer del cr).2 = true ↔
      ((manageFinalizer del cr).1).finalizers ≠ cr.finalizers) ∧
    ((manageFinalizer del cr).2 = false ↔ manageFinalizer del cr = (cr, false)) := by
  cases del with
  | false =>
    by_cases hc : containsString cr.finalizers typeFinalizer = true
    · refine ⟨?_, ?_, ?_⟩ <;> simp [manageFinalizer, hc]
    · rw [Bool.not_eq_true] at hc
      have hmem : typeFinalizer ∈ cr.finalizers ++ [typeFinalizer] :=
        List.mem_append_right _ (List.mem_singleton.mpr rfl)
      refine ⟨?_, ?_, ?_⟩ <;>
        simp [manageFinalizer, hc, (containsString_iff _ _).mpr hmem,
          append_singleton_ne cr.finalizers typeFinalizer]
  | true =>
    by_cases hc : containsString cr.finalizers typeFinalizer = true
    · refine ⟨?_, ?_, ?_⟩ <;>
        simp [manageFinalizer, hc, containsString_removeString,
          removeString_ne cr.finalizers typeFinalizer hc]
    · rw [Bool.not_eq_true] at hc
      refine ⟨?_, ?_, ?_⟩ <;> simp [manageFinalizer, hc]

/-- Publication of the aggregate snapshot happens exactly on the successful
runs of `act`: the final `proxyTypeData = state.newProxyTypeData` assignment
is reached if and only if no client call failed. -/
theorem act_published_iff (c : ClientBehavior) (s : AnalyzedState) :
    (act c s).published = some s.newProxyTypeData ↔ (act c s).err = none := by
  cases hu : s.update <;> cases hc : s.create <;>
    cases hce : c.createErr <;> cases hue : c.updateWebhookErr <;>
    cases hfe : c.fullUpdateErr <;> cases hse : c.statusUpdateErr <;>
    simp only [act, hu, hc, hce, hue, hfe, hse, if_true, if_false,
      Bool.false_eq_true, Bool.true_eq_false] <;>
    (try split_ifs) <;> simp_all

/-- C2: when the cluster-webhook apply (create when `state.create`, update
otherwise) fails, `act` returns that error, leaves the custom resource
untouched (no finalizer mutation and no status mutation), performs no
resource or status write, and does not publish the new aggregate snapshot;
moreover, across all runs, the snapshot is published exactly when every
client call has succeeded. -/
theorem act_aborts_on_webhook_apply_failure (c : ClientBehavior)
    (s : AnalyzedState) (e : String) (hu : s.update = true)
    (he : (if s.create then c.createErr else c.updateWebhookErr) = some e) :
    (act c s).err = some e ∧
    (act c s).customResource = s.customResource ∧
    (act c s).published = none ∧
    (act c s).writes.count .fullUpdate = 0 ∧
    (act c s).writes.count .statusUpdate = 0 ∧
    (∀ c2 s2, (act c2 s2).published = some s2.newProxyTypeData ↔
      (act c2 s2).err = none) := by
  cases hc : s.create with
  | true =>
    rw [hc] at he
    simp only [if_true] at he
    refine ⟨?_, ?_, ?_, ?_, ?_, fun c2 s2 => act_published_iff c2 s2⟩ <;>
      simp [act, hu, hc, he]
  | false =>
    rw [hc] at he
    simp only [Bool.false_eq_true, if_false] at he
    refine ⟨?_, ?_, ?_, ?_, ?_, fun c2 s2 => act_published_iff c2 s2⟩ <;>
      simp [act, hu, hc, he]

/-- A concrete custom resource used to instantiate the `act` theorems. -/
def crEx : CustomResource :=
  { finalizers := [], generation := 1, statusObservedGeneration := 0 }

/-- A concrete analyzed state (first reconcile of a fresh resource: create
the cluster webhook, no deletion marker). -/
def stateEx : AnalyzedState :=
  { update := true, create := true, delete := false,
    customResource := crEx, webhook := 0, newProxyTypeData := 5 }

/-- A client whose webhook create fails. -/
def clientFailEx : ClientBehavior :=
  { createErr := some "boom", updateWebhookErr := none,
    fullUpdateErr := none, statusUpdateErr := none }

/-- A client whose calls all succeed. -/
def clientOkEx : ClientBehavior :=
  { createErr := none, updateWebhookErr := none,
    fullUpdateErr := none, statusUpdateErr := none }

theorem act_aborts_on_webhook_apply_failure_witness :
    (act clientFailEx stateEx).err = some "boom" ∧
    (act clientFailEx stateEx).customResource = crEx ∧
    (act clientFailEx stateEx).published = none ∧
    (act clientFailEx stateEx).writes.count .fullUpdate = 0 ∧
    (act clientFailEx stateEx).writes.count .statusUpdate = 0 ∧
    (∀ c2 s2, (act c2 s2).published = some s2.newProxyTypeData ↔
      (act c2 s2).err = none) :=
  act_aborts_on_webhook_apply_failure clientFailEx stateEx "boom" rfl rfl

/-- C7: in a single `act` invocation whose webhook apply did not fail, a
changed finalizer list leads to exactly one full-object update and no
status-only update; an unchanged finalizer list with changed status fields
leads to exactly one status-only update; and when neither changed, no
custom-resource write is performed at all. -/
theorem act_write_discipline (c : ClientBehavior) (s : AnalyzedState)
    (h : s.update = true →
      (if s.create then c.createErr else c.updateWebhookErr) = none) :
    (act c s).writes.count .fullUpdate =
      (if (manageFinalizer s.delete s.customResource).2 then 1 else 0) ∧
    (act c s).writes.count .statusUpdate =
      (if (manageFinalizer s.delete s.customResource).2 then 0
       else if (manageGeneration (manageFinalizer s.delete s.customResource).1).2
       then 1 else 0) := by
  cases hu : s.update with
  | false =>
    constructor <;>
      · simp only [act, hu, if_false, Bool.false_eq_true]
        (try split_ifs) <;> simp_all
  | true =>
    have he := h hu
    cases hc : s.create with
    | true =>
      rw [hc, if_pos rfl] at he
      constructor <;>
        · simp only [act, hu, hc, he, if_true]
          (try split_ifs) <;> simp_all
    | false =>
      rw [hc, if_neg (by simp)] at he
      constructor <;>
        · simp only [act, hu, hc, he, if_true, if_false, Bool.false_eq_true]
          (try split_ifs) <;> simp_all

theorem act_write_discipline_witness :
    (act clientOkEx stateEx).writes.count .fullUpdate =
      (if (manageFinalizer stateEx.delete stateEx.customResource).2
       then 1 else 0) ∧
    (act clientOkEx stateEx).writes.count .statusUpdate =
      (if (manageFinalizer stateEx.delete stateEx.customResource).2 then 0
       else if (manageGeneration
         (manageFinalizer stateEx.delete stateEx.customResource).1).2
       then 1 else 0) :=
  act_write_discipline clientOkEx stateEx (fun _ => rfl)

/-! ## Claims about endpoint resolution and request construction -/

/-- A fully valid secondary-endpoint environment (the CA bundle decodes
from base64 `YWJj` to `abc`, the port parses as an integer). -/
def envEx : Env :=
  { admServiceName := "svc", admServiceNamespace := "ns",
    admServiceEndpoint := "/validate", admServiceCABundle := "YWJj",
    admServicePort := "443" }

/-- A request whose (group, version, resource, operation) matches no
declared rule — in this code path no rules are declared at all. -/
def reqNoRules : AdmissionRequest :=
  { group := "nomatch.example", version := "v9", resource := "widgets",
    operation := "DELETE" }

/-- A different request, to exercise request-independence. -/
def reqOther : AdmissionRequest :=
  { group := "apps", version := "v1", resource := "deployments",
    operation := "CREATE" }

/-- An environment with every variable unset. -/
def envUnset : Env :=
  { admServiceName := "", admServiceNamespace := "", admServiceEndpoint := "",
    admServiceCABundle := "", admServicePort := "" }

/-- A valid environment except for a non-integer port. -/
def envBadPort : Env :=
  { admServiceName := "svc", admServiceNamespace := "ns",
    admServiceEndpoint := "/validate", admServiceCABundle := "YWJj",
    admServicePort := "https" }

/-- C4, counterexample: the claim says resolution selects exactly the
endpoints whose declared rules match the request, and that a request
matching no declared rules selects zero endpoints.  The code declares no
rules and never inspects the request: with a valid configuration, a
request matching no declared rule still selects one endpoint (not zero),
and an entirely different request selects the identical endpoint list. -/
theorem findWebhooks_counterexample :
    findWebhooks envEx reqNoRules =
      .ok [{ serviceName := "svc", serviceNamespace := "ns",
             path := "/validate", caBundle := "abc", port := "443" }] ∧
    findWebhooks envEx reqNoRules = findWebhooks envEx reqOther := by
  exact ⟨rfl, rfl⟩

/-- C4, amended: endpoint resolution ignores the admission request entirely
and, whenever the environment configuration is valid, selects exactly one
endpoint — the static, environment-derived one — for every request. -/
theorem findWebhooks_request_independent (env : Env)
    (r1 r2 : AdmissionRequest) :
    findWebhooks env r1 = findWebhooks env r2 ∧
    ∀ l, findWebhooks env r1 = .ok l → l.length = 1 := by
  refine ⟨rfl, ?_⟩
  intro l hl
  unfold findWebhooks at hl
  split_ifs at hl <;>
    repeat' first
      | (cases hl <;> rfl)
      | split at hl

theorem findWebhooks_request_independent_witness :
    findWebhooks envEx reqNoRules = findWebhooks envEx reqOther ∧
    ∀ l, findWebhooks envEx reqNoRules = .ok l → l.length = 1 :=
  findWebhooks_request_independent envEx reqNoRules reqOther

/-- C5, counterexample: the claim says configuration is validated once at
startup, before serving begins, and that endpoint construction never
panics while handling an admission request.  `findWebhooks` is the
endpoint-construction step of dispatch — it receives the inbound admission
request — and it reads and validates the environment on that very call,
panicking (here: `Except.error` with the panic message) when a variable is
missing or, with all variables set, when the port is not an integer. -/
theorem findWebhooks_panics_counterexample :
    findWebhooks envUnset reqNoRules =
      .error "failed to read env variable ADM_SERVICE_NAME" ∧
    findWebhooks envBadPort reqNoRules =
      .error "failed to convert port to an int" := by
  exact ⟨rfl, rfl⟩

/-- C5, amended: secondary-endpoint configuration is read and validated
inside `findWebhooks` during the handling of each admission request, and
endpoint construction succeeds exactly when every field is present and
well formed — any empty variable, undecodable CA bundle or non-integer
port makes the construction panic at request-handling time. -/
theorem findWebhooks_validation (env : Env) (request : AdmissionRequest) :
    (findWebhooks env request).toOption.isSome = true ↔
      (env.admServiceName ≠ "" ∧ env.admServiceNamespace ≠ "" ∧
       env.admServiceEndpoint ≠ "" ∧ env.admServiceCABundle ≠ "" ∧
       (base64StdDecode env.admServiceCABundle).isSome = true ∧
       env.admServicePort ≠ "" ∧ (atoi env.admServicePort).isSome = true) := by
  by_cases h1 : env.admServiceName = ""
  · simp [findWebhooks, h1, Except.toOption]
  · by_cases h2 : env.admServiceNamespace = ""
    · simp [findWebhooks, h1, h2, Except.toOption]
    · by_cases h3 : env.admServiceEndpoint = ""
      · simp [findWebhooks, h1, h2, h3, Except.toOption]
      · by_cases h4 : env.admServiceCABundle = ""
        · simp [findWebhooks, h1, h2, h3, h4, Except.toOption]
        · cases hdec : base64StdDecode env.admServiceCABundle with
          | none =>
            simp [findWebhooks, h1, h2, h3, h4, hdec, Except.toOption]
          | some data =>
            by_cases h5 : env.admServicePort = ""
            · simp [findWebhooks, h1, h2, h3, h4, hdec, h5, Except.toOption]
            · cases hport : atoi env.admServicePort with
              | none =>
                simp [findWebhooks, h1, h2, h3, h4, hdec, h5, hport,
                  Except.toOption]
              | some n =>
                simp [findWebhooks, h1, h2, h3, h4, hdec, h5, hport,
                  Except.toOption]

/-- C8: the HTTPS client built by `doWebhook` for an endpoint call has a
root trust set that is exactly the endpoint's own configured CA bundle
appended to a fresh, empty pool — never the ambient system store, never
another endpoint's bundle — and the forwarded request carries precisely
the inbound header key/value pairs and the original request body. -/
theorem buildRequest_trust_and_forwarding (w : Webhook)
    (hs : List (String × List String)) (b : String) :
    (buildRequest w hs b).rootCAs = appendCertsFromPEM newCertPool w.caBundle ∧
    (buildRequest w hs b).rootCAs = [w.caBundle] ∧
    (buildRequest w hs b).body = b ∧
    ∀ k v, (k, v) ∈ (buildRequest w hs b).headers ↔
      ∃ vs, (k, vs) ∈ hs ∧ v ∈ vs := by
  refine ⟨rfl, rfl, rfl, ?_⟩
  intro k v
  simp only [buildRequest, List.mem_flatMap, List.mem_map]
  constructor
  · rintro ⟨kv, hkv, s, hsv, heq⟩
    cases heq
    exact ⟨kv.2, hkv, hsv⟩
  · rintro ⟨vs, hvs, hv⟩
    exact ⟨(k, vs), hvs, v, hv, rfl⟩

end Gesher
